import Mathlib

/-!
Verification of the command-dispatch / connection-serialization core of the
ClearCore controller library (`src/controllers/clear_core.rs`).

The Rust source is shallowly embedded: the `Controller` registry, its
constructor `Controller::new`, the convenience constructor
`Controller::with_client` and the four positional lookup functions are
translated directly.  The device-handle modules
(`components/clear_core_motor.rs`, `components/clear_core_io.rs`) and the
connection actor (`interface/tcp.rs`) belong to the repository but are not
part of the provided sources; where a claim depends on them, a definition
modelled from the specification stands in, and is marked as such in its
doc comment.
-/

set_option autoImplicit false

namespace ClearCore

/-- Wire framing constant: start marker, `pub const STX: u8 = 2`. -/
def STX : Nat := 2

/-- Wire framing constant: textual response terminator, `pub const CR: u8 = 13`. -/
def CR : Nat := 13

/-- Wire framing constant: result byte offset, `pub const RESULT_IDX: u8 = 3`. -/
def RESULT_IDX : Nat := 3

/-- `const NO_DIGITAL_INPUTS: usize = 3`. -/
def NO_DIGITAL_INPUTS : Nat := 3

/-- `const NO_ANALOG_INPUTS: usize = 4`. -/
def NO_ANALOG_INPUTS : Nat := 4

/-- `const NO_OUTPUTS: usize = 6`. -/
def NO_OUTPUTS : Nat := 6

/-- A `tokio::sync::mpsc::Sender<Message>` handle to the shared command
queue.  Cloning a sender yields another handle to the same channel, so a
sender is modelled by the identity of the channel it feeds. -/
structure Sender where
  chan : Nat
deriving DecidableEq, Repr

/-- `Sender::clone`: a cloned producer refers to the same channel. -/
def Sender.clone (tx : Sender) : Sender := tx

/-- The consumer half (`tokio::sync::mpsc::Receiver<Message>`). -/
structure Receiver where
  chan : Nat
deriving DecidableEq, Repr

/-- `pub struct Message { buffer: Vec<u8>, response: oneshot::Sender<Vec<u8>> }`.
The reply slot is referred to by an identifier; its single-use lifecycle is
modelled separately by `SlotState`. -/
structure Message where
  buffer : List Nat
  response : Nat
deriving DecidableEq, Repr

/-- `pub struct MotorBuilder { id: u8, scale: usize }`. -/
structure MotorBuilder where
  id : Nat
  scale : Nat
deriving DecidableEq, Repr

/-- Modelled from the spec: `ClearCoreMotor` (from the repository module
`components/clear_core_motor.rs`, absent from the provided sources) is a
device handle `\x7b id, scale, queue producer \x7d` with no mutable state of
its own.  `ClearCoreMotor::new(id, scale, tx)` stores exactly its
arguments, as the call site in `Controller::new` requires. -/
structure ClearCoreMotor where
  id : Nat
  scale : Nat
  tx : Sender
deriving DecidableEq, Repr

/-- `ClearCoreMotor::new`. -/
def ClearCoreMotor.new (id : Nat) (scale : Nat) (tx : Sender) : ClearCoreMotor :=
  { id := id, scale := scale, tx := tx }

/-- Modelled from the spec: digital input handle `Input` (from
`components/clear_core_io.rs`, absent from the provided sources): identity
plus a cloned queue producer. -/
structure Input where
  id : Nat
  tx : Sender
deriving DecidableEq, Repr

/-- `Input::new`. -/
def Input.new (id : Nat) (tx : Sender) : Input :=
  { id := id, tx := tx }

/-- Modelled from the spec: analog input handle `AnalogInput` (from
`components/clear_core_io.rs`, absent from the provided sources). -/
structure AnalogInput where
  id : Nat
  tx : Sender
deriving DecidableEq, Repr

/-- `AnalogInput::new`. -/
def AnalogInput.new (id : Nat) (tx : Sender) : AnalogInput :=
  { id := id, tx := tx }

/-- Modelled from the spec: output handle `Output` (from
`components/clear_core_io.rs`, absent from the provided sources). -/
structure Output where
  id : Nat
  tx : Sender
deriving DecidableEq, Repr

/-- `Output::new`. -/
def Output.new (id : Nat) (tx : Sender) : Output :=
  { id := id, tx := tx }

/-- `pub struct Controller` with its four owned collections. -/
structure Controller where
  motors : List ClearCoreMotor
  digital_inputs : List Input
  analog_inputs : List AnalogInput
  outputs : List Output
deriving DecidableEq, Repr

/-- `Controller::new(tx, motors)`: maps each `MotorBuilder` to a motor
handle built from its `id` and `scale` with a clone of `tx`, and builds the
three fixed-count collections over the index ranges
`0..NO_DIGITAL_INPUTS`, `0..NO_ANALOG_INPUTS`, `0..NO_OUTPUTS`. -/
def Controller.new (tx : Sender) (motors : List MotorBuilder) : Controller :=
  { motors := motors.map (fun m => ClearCoreMotor.new m.id m.scale tx.clone)
    digital_inputs :=
      (List.range NO_DIGITAL_INPUTS).map (fun index => Input.new index tx.clone)
    analog_inputs :=
      (List.range NO_ANALOG_INPUTS).map (fun index => AnalogInput.new index tx.clone)
    outputs :=
      (List.range NO_OUTPUTS).map (fun index => Output.new index tx.clone) }

/-- Lifecycle events of the single-use reply slot held in
`Message.response` (a oneshot sender): either a value is delivered into
the slot, or the slot is dropped unresolved. -/
inductive SlotEvent where
  | send (v : List Nat)
  | drop
deriving DecidableEq, Repr

/-- States of the single-use reply slot: awaiting resolution, resolved
with a value, or dropped unresolved. -/
inductive SlotState where
  | pending
  | resolved (v : List Nat)
  | dropped
deriving DecidableEq, Repr

/-- Modelled from the spec: one lifecycle step of the reply slot (the
oneshot channel behind `Message.response`; the oneshot implementation is
not among the provided sources).  Delivering a value succeeds only while
the slot is pending, as does dropping it unresolved; the resolved and
dropped states are terminal, so any further event is rejected. -/
def slotApply : SlotState → SlotEvent → Option SlotState
  | SlotState.pending, SlotEvent.send v => some (SlotState.resolved v)
  | SlotState.pending, SlotEvent.drop => some SlotState.dropped
  | _, _ => none

/-- Runs a whole sequence of lifecycle events against a reply slot,
rejecting the sequence as soon as one event is rejected. -/
def slotRun : SlotState → List SlotEvent → Option SlotState
  | s, [] => some s
  | s, e :: es =>
    match slotApply s e with
    | some t => slotRun t es
    | none => none

/-- Modelled from the spec: a system state of the command queue shared by
every device handle of one Controller, together with the connection actor
`client` (from `interface/tcp.rs`, absent from the provided sources).  It
records the global log of enqueued envelopes in enqueue order, the current
queue contents, and the log of envelopes the actor has resolved, in
resolution order. -/
structure SysState where
  enqueued : List Message
  pending : List Message
  resolved : List Message
deriving DecidableEq, Repr

/-- The state at link setup: nothing enqueued, queued or resolved. -/
def SysState.init : SysState := ⟨[], [], []⟩

/-- Modelled from the spec: the two kinds of transition.  Any producer
clone may enqueue an envelope while the queue is below its capacity of
100; the connection actor serves exactly the head of the queue, performing
its round trip and appending the envelope to the resolution log. -/
inductive SysStep : SysState → SysState → Prop where
  | enqueue (s : SysState) (m : Message) (h : s.pending.length < 100) :
      SysStep s ⟨s.enqueued ++ [m], s.pending ++ [m], s.resolved⟩
  | serve (s : SysState) (m : Message) (rest : List Message)
      (h : s.pending = m :: rest) :
      SysStep s ⟨s.enqueued, rest, s.resolved ++ [m]⟩

/-- States reachable from link setup by any interleaving of producer and
actor steps. -/
def SysReachable (s : SysState) : Prop :=
  Relation.ReflTransGen SysStep SysState.init s

/-- A bounded mpsc channel: capacity plus its producer and consumer
halves. -/
structure Channel where
  capacity : Nat
  tx : Sender
  rx : Receiver
deriving DecidableEq, Repr

/-- `tokio::sync::mpsc::channel(buffer)`: creates a bounded channel of the
given capacity; the fresh channel is modelled with identity 0. -/
def channel (buffer : Nat) : Channel :=
  { capacity := buffer, tx := ⟨0⟩, rx := ⟨0⟩ }

/-- The channel `Controller::with_client` creates: `channel(100)`. -/
def withClientChannel : Channel := channel 100

/-- Outcome of submitting one envelope to a bounded queue. -/
inductive SubmitOutcome where
  | enqueued (q : List Message)
  | suspended
deriving DecidableEq, Repr

/-- Modelled from the spec: submitting an envelope on a bounded queue.
Below capacity the envelope is appended in FIFO position; at capacity the
producer suspends.  There is no outcome that drops the envelope and none
that returns an error. -/
def submit (ch : Channel) (q : List Message) (m : Message) : SubmitOutcome :=
  if q.length < ch.capacity then SubmitOutcome.enqueued (q ++ [m])
  else SubmitOutcome.suspended

/-- Modelled from the spec: the unstarted connection actor returned by
`Controller::with_client` — the future `client(addr, rx)` from
`interface/tcp.rs` (absent from the provided sources), represented as an
inert description of the work: the address to connect to and the consumer
half of the queue.  Nothing runs until `ClientWork.run` is applied. -/
structure ClientWork where
  addr : String
  rx : Receiver
deriving DecidableEq, Repr

/-- What the network does for a given address when a connection is
attempted. -/
inductive ConnOutcome where
  | resolveFailure
  | refused
  | accepted
deriving DecidableEq, Repr

/-- Connection-level failures of the client future. -/
inductive ConnError where
  | addressResolutionFailure
  | connectRefused
deriving DecidableEq, Repr

/-- Modelled from the spec: running the connection actor future.  Only
here is the network consulted: address-resolution or connect failure
surfaces as an error result of the running work; on acceptance the actor
proceeds into its drain loop (modelled by `SysStep.serve`). -/
def ClientWork.run (w : ClientWork) (net : String → ConnOutcome) :
    Except ConnError Unit :=
  match net w.addr with
  | ConnOutcome.resolveFailure => Except.error ConnError.addressResolutionFailure
  | ConnOutcome.refused => Except.error ConnError.connectRefused
  | ConnOutcome.accepted => Except.ok ()

/-- `Controller::get_motor`: `self.motors.get(id)`. -/
def Controller.get_motor (c : Controller) (id : Nat) : Option ClearCoreMotor :=
  c.motors.get? id

/-- `Controller::get_digital_inputs`: `self.digital_inputs.get(id)`. -/
def Controller.get_digital_inputs (c : Controller) (id : Nat) : Option Input :=
  c.digital_inputs.get? id

/-- `Controller::get_analog_input`: `self.analog_inputs.get(id)`. -/
def Controller.get_analog_input (c : Controller) (id : Nat) : Option AnalogInput :=
  c.analog_inputs.get? id

/-- `Controller::get_output`: `self.outputs.get(id)`. -/
def Controller.get_output (c : Controller) (id : Nat) : Option Output :=
  c.outputs.get? id

/-- `Controller::with_client(addr, motors)`:
`let (tx, rx) = channel(100); (Controller::new(tx, motors), client(addr, rx))`.
Construction creates the bounded queue and builds the registry over its
producer; the client future is returned unstarted. -/
def Controller.with_client (addr : String) (motors : List MotorBuilder) :
    Controller × ClientWork :=
  let ch := channel 100
  (Controller.new ch.tx motors, { addr := addr, rx := ch.rx })

end ClearCore

namespace ClearCore

/-- Every motor handle placed by `Controller.new` carries the producer it
was given. -/
theorem motors_tx_eq (tx : Sender) (specs : List MotorBuilder) :
    ∀ m ∈ (Controller.new tx specs).motors, m.tx = tx := by
  intro m hm
  simp only [Controller.new, List.mem_map] at hm
  obtain ⟨b, _, rfl⟩ := hm
  rfl

/-- Every digital-input handle placed by `Controller.new` carries the
producer it was given. -/
theorem digital_inputs_tx_eq (tx : Sender) (specs : List MotorBuilder) :
    ∀ d ∈ (Controller.new tx specs).digital_inputs, d.tx = tx := by
  intro d hd
  simp only [Controller.new, List.mem_map] at hd
  obtain ⟨i, _, rfl⟩ := hd
  rfl

/-- Every analog-input handle placed by `Controller.new` carries the
producer it was given. -/
theorem analog_inputs_tx_eq (tx : Sender) (specs : List MotorBuilder) :
    ∀ a ∈ (Controller.new tx specs).analog_inputs, a.tx = tx := by
  intro a ha
  simp only [Controller.new, List.mem_map] at ha
  obtain ⟨i, _, rfl⟩ := ha
  rfl

/-- Every output handle placed by `Controller.new` carries the producer it
was given. -/
theorem outputs_tx_eq (tx : Sender) (specs : List MotorBuilder) :
    ∀ o ∈ (Controller.new tx specs).outputs, o.tx = tx := by
  intro o ho
  simp only [Controller.new, List.mem_map] at ho
  obtain ⟨i, _, rfl⟩ := ho
  rfl

/-- Positional content of the motors collection built by `Controller.new`. -/
theorem motors_get_pos (tx : Sender) (specs : List MotorBuilder) (i : Nat)
    (h : i < specs.length) :
    (Controller.new tx specs).motors.get? i =
      some (ClearCoreMotor.new (specs.get ⟨i, h⟩).id (specs.get ⟨i, h⟩).scale tx.clone) := by
  rw [show (Controller.new tx specs).motors
      = specs.map (fun m => ClearCoreMotor.new m.id m.scale tx.clone) from rfl,
    List.get?_eq_getElem?, List.getElem?_map, List.getElem?_eq_getElem h]
  rfl

/-- Positional content of the digital-inputs collection built by
`Controller.new`. -/
theorem digital_inputs_get_pos (tx : Sender) (specs : List MotorBuilder) (i : Nat)
    (h : i < NO_DIGITAL_INPUTS) :
    (Controller.new tx specs).digital_inputs.get? i = some (Input.new i tx.clone) := by
  rw [show (Controller.new tx specs).digital_inputs
      = (List.range NO_DIGITAL_INPUTS).map (fun index => Input.new index tx.clone) from rfl,
    List.get?_eq_getElem?, List.getElem?_map, List.getElem?_range h]
  rfl

/-- Positional content of the analog-inputs collection built by
`Controller.new`. -/
theorem analog_inputs_get_pos (tx : Sender) (specs : List MotorBuilder) (i : Nat)
    (h : i < NO_ANALOG_INPUTS) :
    (Controller.new tx specs).analog_inputs.get? i = some (AnalogInput.new i tx.clone) := by
  rw [show (Controller.new tx specs).analog_inputs
      = (List.range NO_ANALOG_INPUTS).map (fun index => AnalogInput.new index tx.clone) from rfl,
    List.get?_eq_getElem?, List.getElem?_map, List.getElem?_range h]
  rfl

/-- Positional content of the outputs collection built by
`Controller.new`. -/
theorem outputs_get_pos (tx : Sender) (specs : List MotorBuilder) (i : Nat)
    (h : i < NO_OUTPUTS) :
    (Controller.new tx specs).outputs.get? i = some (Output.new i tx.clone) := by
  rw [show (Controller.new tx specs).outputs
      = (List.range NO_OUTPUTS).map (fun index => Output.new index tx.clone) from rfl,
    List.get?_eq_getElem?, List.getElem?_map, List.getElem?_range h]
  rfl

/-- C1: `Controller::new` is deterministic over the registry layout.  For
every specification list and producer, the motor handle at position i is
the one built from specification i by `ClearCoreMotor::new`, the handles of
the three fixed-count collections at position i are the ones built from
index i, and every handle of every collection carries a clone of the single
supplied producer. -/
theorem controller_new_layout (tx : Sender) (specs : List MotorBuilder) (i : Nat) :
    ((h : i < specs.length) →
      (Controller.new tx specs).motors.get? i =
        some (ClearCoreMotor.new (specs.get ⟨i, h⟩).id (specs.get ⟨i, h⟩).scale tx.clone)) ∧
    (i < NO_DIGITAL_INPUTS →
      (Controller.new tx specs).digital_inputs.get? i = some (Input.new i tx.clone)) ∧
    (i < NO_ANALOG_INPUTS →
      (Controller.new tx specs).analog_inputs.get? i = some (AnalogInput.new i tx.clone)) ∧
    (i < NO_OUTPUTS →
      (Controller.new tx specs).outputs.get? i = some (Output.new i tx.clone)) ∧
    ((∀ m ∈ (Controller.new tx specs).motors, m.tx = tx.clone) ∧
     (∀ d ∈ (Controller.new tx specs).digital_inputs, d.tx = tx.clone) ∧
     (∀ a ∈ (Controller.new tx specs).analog_inputs, a.tx = tx.clone) ∧
     (∀ o ∈ (Controller.new tx specs).outputs, o.tx = tx.clone)) := by
  exact ⟨motors_get_pos tx specs i, digital_inputs_get_pos tx specs i,
    analog_inputs_get_pos tx specs i, outputs_get_pos tx specs i,
    motors_tx_eq tx specs, digital_inputs_tx_eq tx specs,
    analog_inputs_tx_eq tx specs, outputs_tx_eq tx specs⟩

/-- Witness for C1 at a concrete input: one specification with id 7 and
scale 800, producer on channel 0, position 0. -/
theorem controller_new_layout_witness :
    (Controller.new ⟨0⟩ [⟨7, 800⟩]).motors.get? 0 =
      some (ClearCoreMotor.new 7 800 (Sender.clone ⟨0⟩)) ∧
    (Controller.new ⟨0⟩ [⟨7, 800⟩]).digital_inputs.get? 0 =
      some (Input.new 0 (Sender.clone ⟨0⟩)) ∧
    (Controller.new ⟨0⟩ [⟨7, 800⟩]).analog_inputs.get? 0 =
      some (AnalogInput.new 0 (Sender.clone ⟨0⟩)) ∧
    (Controller.new ⟨0⟩ [⟨7, 800⟩]).outputs.get? 0 =
      some (Output.new 0 (Sender.clone ⟨0⟩)) :=
  ⟨(controller_new_layout ⟨0⟩ [⟨7, 800⟩] 0).1 (by decide),
   (controller_new_layout ⟨0⟩ [⟨7, 800⟩] 0).2.1 (by decide),
   (controller_new_layout ⟨0⟩ [⟨7, 800⟩] 0).2.2.1 (by decide),
   (controller_new_layout ⟨0⟩ [⟨7, 800⟩] 0).2.2.2.1 (by decide)⟩

/-- C9: the core-visible wire-framing constants are exactly
STX = 0x02, CR = 0x0D and RESULT_IDX = 3. -/
theorem wire_framing_constants : STX = 0x02 ∧ CR = 0x0D ∧ RESULT_IDX = 3 := by
  refine ⟨rfl, rfl, rfl⟩

/-- C2: the Controller built from any specification list owns exactly four
collections, with the motors collection as long as the specification list,
3 digital inputs, 4 analog inputs and 6 outputs. -/
theorem controller_new_sizes (tx : Sender) (specs : List MotorBuilder) :
    (Controller.new tx specs).motors.length = specs.length ∧
    (Controller.new tx specs).digital_inputs.length = 3 ∧
    (Controller.new tx specs).analog_inputs.length = 4 ∧
    (Controller.new tx specs).outputs.length = 6 := by
  refine ⟨?_, ?_, ?_, ?_⟩ <;>
    simp [Controller.new, NO_DIGITAL_INPUTS, NO_ANALOG_INPUTS, NO_OUTPUTS]

/-- C4: every lookup is a bounds-checked positional lookup on its
collection: it returns some of the element at position id when id is below
the collection length, and none otherwise; lookups are pure observations
of the Controller and never modify it. -/
theorem lookup_bounds (c : Controller) (id : Nat) :
    ((h : id < c.motors.length) → c.get_motor id = some (c.motors.get ⟨id, h⟩)) ∧
    (c.motors.length ≤ id → c.get_motor id = none) ∧
    ((h : id < c.digital_inputs.length) →
      c.get_digital_inputs id = some (c.digital_inputs.get ⟨id, h⟩)) ∧
    (c.digital_inputs.length ≤ id → c.get_digital_inputs id = none) ∧
    ((h : id < c.analog_inputs.length) →
      c.get_analog_input id = some (c.analog_inputs.get ⟨id, h⟩)) ∧
    (c.analog_inputs.length ≤ id → c.get_analog_input id = none) ∧
    ((h : id < c.outputs.length) → c.get_output id = some (c.outputs.get ⟨id, h⟩)) ∧
    (c.outputs.length ≤ id → c.get_output id = none) :=
  ⟨fun h => List.get?_eq_get h, fun h => List.get?_len_le h,
   fun h => List.get?_eq_get h, fun h => List.get?_len_le h,
   fun h => List.get?_eq_get h, fun h => List.get?_len_le h,
   fun h => List.get?_eq_get h, fun h => List.get?_len_le h⟩

/-- Witness for C4 on the Controller built from one specification:
position 0 is inside every collection and position 99 is outside every
collection. -/
theorem lookup_bounds_witness :
    (Controller.new ⟨0⟩ [⟨0, 800⟩]).get_motor 0 =
      some ((Controller.new ⟨0⟩ [⟨0, 800⟩]).motors.get ⟨0, by decide⟩) ∧
    (Controller.new ⟨0⟩ [⟨0, 800⟩]).get_motor 99 = none ∧
    (Controller.new ⟨0⟩ [⟨0, 800⟩]).get_digital_inputs 0 =
      some ((Controller.new ⟨0⟩ [⟨0, 800⟩]).digital_inputs.get ⟨0, by decide⟩) ∧
    (Controller.new ⟨0⟩ [⟨0, 800⟩]).get_digital_inputs 99 = none ∧
    (Controller.new ⟨0⟩ [⟨0, 800⟩]).get_analog_input 0 =
      some ((Controller.new ⟨0⟩ [⟨0, 800⟩]).analog_inputs.get ⟨0, by decide⟩) ∧
    (Controller.new ⟨0⟩ [⟨0, 800⟩]).get_analog_input 99 = none ∧
    (Controller.new ⟨0⟩ [⟨0, 800⟩]).get_output 0 =
      some ((Controller.new ⟨0⟩ [⟨0, 800⟩]).outputs.get ⟨0, by decide⟩) ∧
    (Controller.new ⟨0⟩ [⟨0, 800⟩]).get_output 99 = none :=
  ⟨(lookup_bounds (Controller.new ⟨0⟩ [⟨0, 800⟩]) 0).1 (by decide),
   (lookup_bounds (Controller.new ⟨0⟩ [⟨0, 800⟩]) 99).2.1 (by decide),
   (lookup_bounds (Controller.new ⟨0⟩ [⟨0, 800⟩]) 0).2.2.1 (by decide),
   (lookup_bounds (Controller.new ⟨0⟩ [⟨0, 800⟩]) 99).2.2.2.1 (by decide),
   (lookup_bounds (Controller.new ⟨0⟩ [⟨0, 800⟩]) 0).2.2.2.2.1 (by decide),
   (lookup_bounds (Controller.new ⟨0⟩ [⟨0, 800⟩]) 99).2.2.2.2.2.1 (by decide),
   (lookup_bounds (Controller.new ⟨0⟩ [⟨0, 800⟩]) 0).2.2.2.2.2.2.1 (by decide),
   (lookup_bounds (Controller.new ⟨0⟩ [⟨0, 800⟩]) 99).2.2.2.2.2.2.2 (by decide)⟩

/-- Counterexample to C3 as stated: with the single specification
id 5 / scale 800, the in-range lookup `get_motor 0` returns a handle
carrying id 5, not the looked-up id 0, because `ClearCoreMotor::new`
receives the id field of the specification, not the specification's
position. -/
theorem get_motor_id_mismatch :
    ((Controller.new ⟨0⟩ [⟨5, 800⟩]).get_motor 0).map ClearCoreMotor.id = some 5 ∧
    some 5 ≠ some (0 : Nat) :=
  ⟨rfl, by decide⟩

/-- C3 amended: an in-range `get_motor id` returns the handle built from
the specification at position id, carrying the id and scale recorded in
that specification (hence exactly id and its configured scale whenever the
specification list is positionally numbered, as in the repository's
configuration); an out-of-range id returns none, never an error. -/
theorem get_motor_spec (tx : Sender) (specs : List MotorBuilder) (id : Nat) :
    ((h : id < specs.length) →
      (Controller.new tx specs).get_motor id =
        some (ClearCoreMotor.new (specs.get ⟨id, h⟩).id (specs.get ⟨id, h⟩).scale tx)) ∧
    (specs.length ≤ id → (Controller.new tx specs).get_motor id = none) ∧
    (specs.map MotorBuilder.id = List.range specs.length →
      id < specs.length →
      ((Controller.new tx specs).get_motor id).map ClearCoreMotor.id = some id) := by
  refine ⟨?_, ?_, ?_⟩
  · intro h
    exact motors_get_pos tx specs id h
  · intro h
    exact List.get?_len_le (by simpa [Controller.new] using h)
  · intro hpos h
    rw [Controller.get_motor, motors_get_pos tx specs id h]
    have hid : (specs.map MotorBuilder.id)[id]? = some id := by
      rw [hpos, List.getElem?_range (by simpa using h)]
    rw [List.getElem?_map, List.getElem?_eq_getElem h] at hid
    simpa [ClearCoreMotor.new] using hid

/-- Witness for the amended C3: two positionally-numbered specifications;
lookup 1 is in range and yields id 1 with its configured scale 500, lookup
5 is out of range and yields none. -/
theorem get_motor_spec_witness :
    (Controller.new ⟨0⟩ [⟨0, 800⟩, ⟨1, 500⟩]).get_motor 1 =
      some (ClearCoreMotor.new 1 500 ⟨0⟩) ∧
    (Controller.new ⟨0⟩ [⟨0, 800⟩, ⟨1, 500⟩]).get_motor 5 = none ∧
    ((Controller.new ⟨0⟩ [⟨0, 800⟩, ⟨1, 500⟩]).get_motor 1).map ClearCoreMotor.id =
      some 1 :=
  ⟨(get_motor_spec ⟨0⟩ [⟨0, 800⟩, ⟨1, 500⟩] 1).1 (by decide),
   (get_motor_spec ⟨0⟩ [⟨0, 800⟩, ⟨1, 500⟩] 5).2.1 (by decide),
   (get_motor_spec ⟨0⟩ [⟨0, 800⟩, ⟨1, 500⟩] 1).2.2 (by decide) (by decide)⟩

/-- C10: with an empty specification list every motor lookup is none,
while the fixed-count collections are unaffected: digital inputs answer
for id < 3, analog inputs for id < 4, outputs for id < 6. -/
theorem empty_motor_list_lookups (tx : Sender) (id : Nat) :
    (Controller.new tx []).get_motor id = none ∧
    (id < 3 → ((Controller.new tx []).get_digital_inputs id).isSome = true) ∧
    (id < 4 → ((Controller.new tx []).get_analog_input id).isSome = true) ∧
    (id < 6 → ((Controller.new tx []).get_output id).isSome = true) := by
  refine ⟨rfl, ?_, ?_, ?_⟩
  · intro h
    rw [Controller.get_digital_inputs, digital_inputs_get_pos tx [] id h]
    rfl
  · intro h
    rw [Controller.get_analog_input, analog_inputs_get_pos tx [] id h]
    rfl
  · intro h
    rw [Controller.get_output, outputs_get_pos tx [] id h]
    rfl

/-- C5: the reply slot of a Command Envelope is single-use.  A single
delivery resolves it and a single drop leaves it unresolved, while every
sequence that would deliver twice, deliver and then drop, or drop and then
deliver is rejected by the slot lifecycle: never both, never twice. -/
theorem reply_slot_single_use (v w : List Nat) (es : List SlotEvent) :
    slotRun SlotState.pending [SlotEvent.send v] = some (SlotState.resolved v) ∧
    slotRun SlotState.pending [SlotEvent.drop] = some SlotState.dropped ∧
    slotRun SlotState.pending (SlotEvent.send v :: SlotEvent.send w :: es) = none ∧
    slotRun SlotState.pending (SlotEvent.send v :: SlotEvent.drop :: es) = none ∧
    slotRun SlotState.pending (SlotEvent.drop :: SlotEvent.send v :: es) = none ∧
    slotRun SlotState.pending (SlotEvent.drop :: SlotEvent.drop :: es) = none :=
  ⟨rfl, rfl, rfl, rfl, rfl, rfl⟩

/-- Any accepted complete lifecycle of a reply slot starting pending is
empty, one delivery, or one drop. -/
theorem slotRun_pending_cases (es : List SlotEvent) (s : SlotState)
    (h : slotRun SlotState.pending es = some s) :
    es = [] ∨ (∃ v, es = [SlotEvent.send v]) ∨ es = [SlotEvent.drop] := by
  match es with
  | [] => exact Or.inl rfl
  | [SlotEvent.send v] => exact Or.inr (Or.inl ⟨v, rfl⟩)
  | [SlotEvent.drop] => exact Or.inr (Or.inr rfl)
  | SlotEvent.send v :: SlotEvent.send w :: es => exact absurd h (by simp [slotRun, slotApply])
  | SlotEvent.send v :: SlotEvent.drop :: es => exact absurd h (by simp [slotRun, slotApply])
  | SlotEvent.drop :: SlotEvent.send v :: es => exact absurd h (by simp [slotRun, slotApply])
  | SlotEvent.drop :: SlotEvent.drop :: es => exact absurd h (by simp [slotRun, slotApply])

/-- C6: global FIFO.  In every state reachable by any interleaving of
producer submissions and actor service steps, the resolution log followed
by the still-queued envelopes is exactly the global enqueue log: the actor
dequeues and resolves envelopes in exactly global enqueue order, whichever
handles enqueued them. -/
theorem fifo_resolution_order (s : SysState) (h : SysReachable s) :
    s.resolved ++ s.pending = s.enqueued := by
  induction h with
  | refl => rfl
  | tail _ hstep ih =>
    cases hstep with
    | enqueue m hcap =>
      simpa [List.append_assoc] using congrArg (fun l => l ++ [m]) ih
    | serve m rest hp =>
      rw [List.append_assoc, List.singleton_append, ← hp]
      exact ih

/-- Witness for C6: a concrete interleaving that enqueues two envelopes
and serves one; the resolution log and queue contents concatenate to the
enqueue log. -/
theorem fifo_resolution_order_witness :
    SysReachable ⟨[⟨[1], 0⟩, ⟨[2], 1⟩], [⟨[2], 1⟩], [⟨[1], 0⟩]⟩ ∧
    ([⟨[1], 0⟩] : List Message) ++ [⟨[2], 1⟩] = [⟨[1], 0⟩, ⟨[2], 1⟩] := by
  have h1 : SysStep SysState.init ⟨[⟨[1], 0⟩], [⟨[1], 0⟩], []⟩ :=
    SysStep.enqueue SysState.init ⟨[1], 0⟩ (by decide)
  have h2 : SysStep ⟨[⟨[1], 0⟩], [⟨[1], 0⟩], []⟩
      ⟨[⟨[1], 0⟩, ⟨[2], 1⟩], [⟨[1], 0⟩, ⟨[2], 1⟩], []⟩ :=
    SysStep.enqueue ⟨[⟨[1], 0⟩], [⟨[1], 0⟩], []⟩ ⟨[2], 1⟩ (by decide)
  have h3 : SysStep ⟨[⟨[1], 0⟩, ⟨[2], 1⟩], [⟨[1], 0⟩, ⟨[2], 1⟩], []⟩
      ⟨[⟨[1], 0⟩, ⟨[2], 1⟩], [⟨[2], 1⟩], [⟨[1], 0⟩]⟩ :=
    SysStep.serve ⟨[⟨[1], 0⟩, ⟨[2], 1⟩], [⟨[1], 0⟩, ⟨[2], 1⟩], []⟩ ⟨[1], 0⟩ [⟨[2], 1⟩] rfl
  have hr : SysReachable ⟨[⟨[1], 0⟩, ⟨[2], 1⟩], [⟨[2], 1⟩], [⟨[1], 0⟩]⟩ :=
    Relation.ReflTransGen.tail
      (Relation.ReflTransGen.tail (Relation.ReflTransGen.single h1) h2) h3
  exact ⟨hr, fifo_resolution_order _ hr⟩

/-- C7: `Controller::with_client` returns a pair of the Controller and an
unstarted unit of work.  The pair is built by a total pure function that
never consults the network, and every connection failure (address
resolution, connect refusal) is observable exactly when the returned work
is run against a network, never at construction. -/
theorem with_client_deferred_connection (addr : String)
    (motors : List MotorBuilder) (net : String → ConnOutcome) :
    Controller.with_client addr motors =
      (Controller.new withClientChannel.tx motors,
        ClientWork.mk addr withClientChannel.rx) ∧
    ((Controller.with_client addr motors).2.run net = Except.ok () ↔
      net addr = ConnOutcome.accepted) ∧
    ((Controller.with_client addr motors).2.run net =
        Except.error ConnError.addressResolutionFailure ↔
      net addr = ConnOutcome.resolveFailure) ∧
    ((Controller.with_client addr motors).2.run net =
        Except.error ConnError.connectRefused ↔
      net addr = ConnOutcome.refused) := by
  refine ⟨rfl, ?_, ?_, ?_⟩ <;>
    cases hn : net addr <;>
      simp [Controller.with_client, ClientWork.run, hn]

/-- C8: the command queue created by `Controller::with_client` has
capacity exactly 100, its consumer half is the one handed to the client
work, and submitting on a full queue suspends the producer — the envelope
is neither dropped nor turned into an error — while below capacity the
envelope is appended. -/
theorem with_client_queue_bounded (addr : String) (motors : List MotorBuilder)
    (q : List Message) (m : Message) :
    withClientChannel.capacity = 100 ∧
    (Controller.with_client addr motors).2.rx = withClientChannel.rx ∧
    (q.length = 100 → submit withClientChannel q m = SubmitOutcome.suspended) ∧
    (q.length < 100 →
      submit withClientChannel q m = SubmitOutcome.enqueued (q ++ [m])) := by
  refine ⟨rfl, rfl, ?_, ?_⟩
  · intro h
    simp [submit, withClientChannel, channel, h]
  · intro h
    simp [submit, withClientChannel, channel, h]

/-- Witness for C8: a queue holding 100 envelopes suspends the producer,
the empty queue accepts the envelope. -/
theorem with_client_queue_bounded_witness :
    withClientChannel.capacity = 100 ∧
    (Controller.with_client "127.0.0.1:8888" []).2.rx = withClientChannel.rx ∧
    submit withClientChannel (List.replicate 100 ⟨[], 0⟩) ⟨[], 0⟩ =
      SubmitOutcome.suspended ∧
    submit withClientChannel [] ⟨[], 0⟩ = SubmitOutcome.enqueued [⟨[], 0⟩] :=
  ⟨(with_client_queue_bounded "127.0.0.1:8888" [] [] ⟨[], 0⟩).1,
   (with_client_queue_bounded "127.0.0.1:8888" [] [] ⟨[], 0⟩).2.1,
   (with_client_queue_bounded "127.0.0.1:8888" []
      (List.replicate 100 ⟨[], 0⟩) ⟨[], 0⟩).2.2.1 (by simp),
   (with_client_queue_bounded "127.0.0.1:8888" [] [] ⟨[], 0⟩).2.2.2 (by decide)⟩

/-- Witness for C10 at id 2, which is inside all three fixed ranges. -/
theorem empty_motor_list_lookups_witness :
    (Controller.new ⟨0⟩ []).get_motor 2 = none ∧
    ((Controller.new ⟨0⟩ []).get_digital_inputs 2).isSome = true ∧
    ((Controller.new ⟨0⟩ []).get_analog_input 2).isSome = true ∧
    ((Controller.new ⟨0⟩ []).get_output 2).isSome = true :=
  ⟨(empty_motor_list_lookups ⟨0⟩ 2).1,
   (empty_motor_list_lookups ⟨0⟩ 2).2.1 (by decide),
   (empty_motor_list_lookups ⟨0⟩ 2).2.2.1 (by decide),
   (empty_motor_list_lookups ⟨0⟩ 2).2.2.2 (by decide)⟩

end ClearCore
